import Mathlib

set_option maxRecDepth 8000

/-!
# Verification of the `tardy` time-tracking widget (`src/app/page.tsx`)

Shallow embedding of the single React component in `src/app/page.tsx`.

Modelling conventions:
* A JavaScript `Date` is modelled by `DateTime`: its instant as whole epoch
  seconds (`epochSecond`), together with the local weekday (`getDay`,
  Sunday = 0) and local hour (`getHours`) that the code reads off it.
  All claims compare timestamps at second precision, so whole seconds
  suffice; `date-fns`'s `differenceInSeconds` is exact on whole seconds.
* JavaScript numbers are modelled by `ℚ` (every numeric example in the
  claims is exactly representable).
* The component's `useState` cells form `ComponentState`; each handler and
  effect becomes a pure function on it.
* An ISO-8601 timestamp string is modelled by the `DateTime` it denotes:
  `toISOString` followed by `new Date(·)` recovers the same instant, and
  the local fields are derived from the instant.
* `JSON.parse` of the raw `localStorage` string either throws or yields a
  record; the raw cell is modelled by `Option RawStored`, where
  `RawStored.malformed` stands for a present string `JSON.parse` rejects
  and `RawStored.parsed d` for one it parses to `d`.
-/

/-- A JavaScript `Date` as consumed by the component: the instant in whole
epoch seconds, plus the local weekday (`getDay()`, Sunday = 0) and local
hour (`getHours()`, 0–23) derived from it. -/
structure DateTime where
  epochSecond : Int
  getDay : Nat
  getHours : Nat
deriving DecidableEq, Repr

/-- `date-fns` `differenceInSeconds(a, b)`: the signed number of whole
seconds from `b` to `a` (exact at second precision). -/
def differenceInSeconds (a b : DateTime) : Int :=
  a.epochSecond - b.epochSecond

/-- The TypeScript `StoredData` record written to / read from
`localStorage`. ISO timestamp strings are modelled by the instants they
denote (see module docstring). -/
structure StoredData where
  clockInTime : Option DateTime
  clockOutTime : Option DateTime
  totalWorkedToday : Int
  weeklyHours : List ℚ
  hourlyRate : ℚ
deriving DecidableEq, Repr

/-- `getInitialData()` from the source: the defaults used on first run. -/
def getInitialData : StoredData :=
  { clockInTime := none
    clockOutTime := none
    totalWorkedToday := 0
    weeklyHours := [0, 0, 0, 0, 0]
    hourlyRate := 15 }

/-- A present `localStorage` string under the stored key: either one that
`JSON.parse` throws on (`malformed`) or one it parses to a record. -/
inductive RawStored where
  | malformed
  | parsed (d : StoredData)
deriving DecidableEq, Repr

/-- `loadStoredData()` from the source.  The raw cell is `none` when no
record is stored.  On an absent record it returns `getInitialData()`; on a
parsed record it re-normalises each timestamp through
`new Date(s).toISOString()` (the identity on the denoted instant) and
keeps `null` as `null`; on a malformed record `JSON.parse` throws and the
exception propagates to the caller (there is no `try`/`catch`), modelled
as `Except.error`. -/
def loadStoredData (cell : Option RawStored) : Except String StoredData :=
  match cell with
  | none => .ok getInitialData
  | some .malformed => .error "SyntaxError: JSON.parse"
  | some (.parsed d) =>
      .ok { d with
              clockInTime := d.clockInTime.map id
              clockOutTime := d.clockOutTime.map id }

/-- The component's `useState` cells (the employee card and the displayed
wall clock carry no tracked state). -/
structure ComponentState where
  clockInTime : Option DateTime
  clockOutTime : Option DateTime
  totalWorkedToday : Int
  weeklyHours : List ℚ
  hourlyRate : ℚ
deriving DecidableEq, Repr

/-- The initial values of the `useState` cells. -/
def initialComponentState : ComponentState :=
  { clockInTime := none
    clockOutTime := none
    totalWorkedToday := 0
    weeklyHours := [0, 0, 0, 0, 0]
    hourlyRate := 15 }

/-- The `dataToStore` record built by the save effect from the current
state (`clockInTime?.toISOString() || null`, etc.). -/
def dataToStore (s : ComponentState) : StoredData :=
  { clockInTime := s.clockInTime
    clockOutTime := s.clockOutTime
    totalWorkedToday := s.totalWorkedToday
    weeklyHours := s.weeklyHours
    hourlyRate := s.hourlyRate }

/-- The mount effect that copies a loaded record into the `useState`
cells: each timestamp is set only when non-null (`if (storedData.clockInTime)
setClockInTime(...)`), the remaining fields are set unconditionally. -/
def applyStoredData (d : StoredData) (s : ComponentState) : ComponentState :=
  { s with
      clockInTime := match d.clockInTime with
        | some t => some t
        | none => s.clockInTime
      clockOutTime := match d.clockOutTime with
        | some t => some t
        | none => s.clockOutTime
      totalWorkedToday := d.totalWorkedToday
      weeklyHours := d.weeklyHours
      hourlyRate := d.hourlyRate }

/-- `handleClockIn` from the source: unconditionally sets
`clockInTime = now`, clears `clockOutTime`, resets `totalWorkedToday`. -/
def handleClockIn (now : DateTime) (s : ComponentState) : ComponentState :=
  { s with
      clockInTime := some now
      clockOutTime := none
      totalWorkedToday := 0 }

/-- `handleClockOut` from the source: sets `clockOutTime = now`; when a
clock-in time exists and `todayIndex = now.getDay() - 1` lies in `[0, 5)`,
overwrites slot `todayIndex` of `weeklyHours` with
`differenceInSeconds(now, clockInTime) / 3600`.  `todayIndex` is a signed
JavaScript number, hence `Int`. -/
def handleClockOut (now : DateTime) (s : ComponentState) : ComponentState :=
  let s1 := { s with clockOutTime := some now }
  match s.clockInTime with
  | none => s1
  | some cin =>
      let todayIndex : Int := (now.getDay : Int) - 1
      if 0 ≤ todayIndex ∧ todayIndex < 5 then
        let workedToday : ℚ := (differenceInSeconds now cin : ℚ) / 3600
        { s1 with weeklyHours := s1.weeklyHours.set todayIndex.toNat workedToday }
      else
        s1

/-- One firing of the worked-time interval: the interval exists exactly
while `clockInTime && !clockOutTime`, and each firing increments
`totalWorkedToday` by 1. -/
def tick (s : ComponentState) : ComponentState :=
  if s.clockInTime.isSome ∧ s.clockOutTime = none then
    { s with totalWorkedToday := s.totalWorkedToday + 1 }
  else
    s

/-- The hourly-rate input's `onChange`: replaces `hourlyRate`. -/
def setHourlyRate (r : ℚ) (s : ComponentState) : ComponentState :=
  { s with hourlyRate := r }

/-- `isWorkingHours` from the source:
`currentTime.getHours() >= 9 && currentTime.getHours() < 17`. -/
def isWorkingHours (now : DateTime) : Bool :=
  9 ≤ now.getHours && now.getHours < 17

/-- `isWeekday` from the source:
`currentTime.getDay() > 0 && currentTime.getDay() < 6`. -/
def isWeekday (now : DateTime) : Bool :=
  0 < now.getDay && now.getDay < 6

/-- The Clock In button's `disabled` prop:
`!!clockInTime || !isWorkingHours || !isWeekday`. -/
def clockInDisabled (now : DateTime) (s : ComponentState) : Bool :=
  s.clockInTime.isSome || !isWorkingHours now || !isWeekday now

/-- The Clock Out button's `disabled` prop:
`!clockInTime || !!clockOutTime`. -/
def clockOutDisabled (s : ComponentState) : Bool :=
  s.clockInTime.isNone || s.clockOutTime.isSome

/-- An active session in the spec's sense: a set clock-in time and no
clock-out time yet. -/
def activeSession (s : ComponentState) : Bool :=
  s.clockInTime.isSome && s.clockOutTime.isNone

/-- JavaScript `String.prototype.padStart(2, '0')`: prepend zeros up to
length 2, leaving longer strings unchanged. -/
def padStart2 (s : String) : String :=
  String.mk (List.replicate (2 - s.length) '0') ++ s

/-- `formatTime` from the source: integer division of a second count into
hours / minutes / seconds, each rendered in decimal and padded with
`padStart(2, '0')`, joined by colons.  The hour count is not reduced
modulo 24. -/
def formatTime (seconds : Nat) : String :=
  let hours := seconds / 3600
  let minutes := seconds % 3600 / 60
  let remainingSeconds := seconds % 60
  padStart2 (Nat.repr hours) ++ ":" ++ padStart2 (Nat.repr minutes)
    ++ ":" ++ padStart2 (Nat.repr remainingSeconds)

/-- JavaScript `Number.prototype.toFixed(2)` on the displayed values,
modelled as rounding to two decimal places. -/
def toFixed2 (x : ℚ) : ℚ :=
  (round (x * 100) : ℤ) / 100

/-- `calculateDailyEarnings` from the source:
`((totalWorkedToday / 3600) * hourlyRate).toFixed(2)`. -/
def calculateDailyEarnings (s : ComponentState) : ℚ :=
  toFixed2 ((s.totalWorkedToday : ℚ) / 3600 * s.hourlyRate)

/-- `calculateWeeklyEarnings` from the source:
`weeklyHours.reduce((total, hours) => total + hours * hourlyRate, 0).toFixed(2)`. -/
def calculateWeeklyEarnings (weeklyHours : List ℚ) (hourlyRate : ℚ) : ℚ :=
  toFixed2 (weeklyHours.foldl (fun total hours => total + hours * hourlyRate) 0)

/-- The operations that can change the component's state after mount. -/
inductive Op where
  | clockIn (now : DateTime)
  | clockOut (now : DateTime)
  | tickOp
  | setRate (r : ℚ)
deriving Repr

/-- Apply one operation to the state. -/
def applyOp (o : Op) (s : ComponentState) : ComponentState :=
  match o with
  | .clockIn now => handleClockIn now s
  | .clockOut now => handleClockOut now s
  | .tickOp => tick s
  | .setRate r => setHourlyRate r s

/-- Apply a sequence of operations, oldest first. -/
def applyOps (ops : List Op) (s : ComponentState) : ComponentState :=
  ops.foldl (fun s o => applyOp o s) s

/-- The states the component can be in: the initial state, the result of
any operation on a reachable state, and the result of loading on mount a
record saved from a reachable state. -/
inductive Reachable : ComponentState → Prop where
  | init : Reachable initialComponentState
  | step (o : Op) {s : ComponentState} (hs : Reachable s) : Reachable (applyOp o s)
  | load {s saved : ComponentState} (hs : Reachable s) (hsaved : Reachable saved) :
      Reachable (applyStoredData (dataToStore saved) s)

/-- Monday 09:00 local time (epoch second 32400 of some Monday). -/
def mondayNine : DateTime := ⟨32400, 1, 9⟩

/-- Monday 17:00 local time, eight hours after `mondayNine`. -/
def mondaySeventeen : DateTime := ⟨61200, 1, 17⟩

/-- A state with an active session that clocked in at `mondayNine`. -/
def mondaySessionState : ComponentState :=
  { clockInTime := some mondayNine
    clockOutTime := none
    totalWorkedToday := 28800
    weeklyHours := [0, 0, 0, 0, 0]
    hourlyRate := 15 }

/-- Saturday 12:00 local time. -/
def saturdayNoon : DateTime := ⟨475200, 6, 12⟩

/-- Wednesday 10:00 local time. -/
def wednesdayTen : DateTime := ⟨208800, 3, 10⟩

/-- The events that can reach the component after mount, including a mount
load of an arbitrary stored record. -/
inductive MountedOp where
  | op (o : Op)
  | loadFrom (d : StoredData)

/-- Apply one post-mount event to the state. -/
def applyMountedOp (o : MountedOp) (s : ComponentState) : ComponentState :=
  match o with
  | .op o' => applyOp o' s
  | .loadFrom d => applyStoredData d s

/-- Apply a sequence of post-mount events, oldest first. -/
def applyMountedOps (ops : List MountedOp) (s : ComponentState) : ComponentState :=
  ops.foldl (fun s o => applyMountedOp o s) s

/-- A demo event sequence: one worked-time tick, then a mount load of the
default record. -/
def demoOps : List MountedOp :=
  [MountedOp.op Op.tickOp, MountedOp.loadFrom getInitialData]

/-- C2: clocking in sets `clockInTime = now`, clears `clockOutTime`, and
resets `totalWorkedToday` to 0, regardless of the prior state. -/
theorem clockIn_resets (s : ComponentState) (now : DateTime) :
    (handleClockIn now s).clockInTime = some now ∧
    (handleClockIn now s).clockOutTime = none ∧
    (handleClockIn now s).totalWorkedToday = 0 :=
  ⟨rfl, rfl, rfl⟩

/-- `handleClockOut` stamps `clockOutTime = now` in every branch,
whatever the weekday. -/
lemma handleClockOut_clockOutTime (now : DateTime) (s : ComponentState) :
    (handleClockOut now s).clockOutTime = some now := by
  obtain ⟨cin, cout, tw, wh, r⟩ := s
  cases cin with
  | none => rfl
  | some c =>
      unfold handleClockOut
      dsimp only
      split <;> rfl

/-- C1: clocking out of an active session sets `clockOutTime = now` for
every `now`, weekends included; and whenever `now` falls on Monday–Friday
it additionally overwrites exactly slot `now.getDay - 1`
(Monday = 0 .. Friday = 4) of `weeklyHours` with the elapsed hours
`(now - clockInTime) / 3600`, leaving every other slot unchanged. -/
theorem clockOut_weekday_records (s : ComponentState) (now cin : DateTime)
    (hin : s.clockInTime = some cin) (_hout : s.clockOutTime = none) :
    (handleClockOut now s).clockOutTime = some now ∧
    (1 ≤ now.getDay → now.getDay ≤ 5 →
      (handleClockOut now s).weeklyHours =
        s.weeklyHours.set (now.getDay - 1)
          ((differenceInSeconds now cin : ℚ) / 3600) ∧
      (∀ i : Nat, i ≠ now.getDay - 1 →
        (handleClockOut now s).weeklyHours[i]? = s.weeklyHours[i]?)) := by
  refine ⟨handleClockOut_clockOutTime now s, ?_⟩
  intro hlo hhi
  have hc : 0 ≤ (now.getDay : Int) - 1 ∧ (now.getDay : Int) - 1 < 5 := by omega
  have htn : ((now.getDay : Int) - 1).toNat = now.getDay - 1 := by omega
  unfold handleClockOut
  rw [hin]
  simp only [if_pos hc, htn]
  refine ⟨trivial, ?_⟩
  intro i hi
  exact List.getElem?_set_ne (by omega)

/-- C4: clocking out of an active session at a Saturday or Sunday time
leaves `weeklyHours` completely unchanged. -/
theorem clockOut_weekend_frame (s : ComponentState) (now cin : DateTime)
    (hin : s.clockInTime = some cin) (_hout : s.clockOutTime = none)
    (hday : now.getDay = 0 ∨ now.getDay = 6) :
    (handleClockOut now s).weeklyHours = s.weeklyHours := by
  have hc : ¬(0 ≤ (now.getDay : Int) - 1 ∧ (now.getDay : Int) - 1 < 5) := by omega
  unfold handleClockOut
  rw [hin]
  simp only [if_neg hc]

theorem clockOut_weekday_records_witness :
    (handleClockOut mondaySeventeen mondaySessionState).clockOutTime =
      some mondaySeventeen ∧
    (handleClockOut mondaySeventeen mondaySessionState).weeklyHours =
      [8, 0, 0, 0, 0] := by
  have h := clockOut_weekday_records mondaySessionState mondaySeventeen mondayNine
    rfl rfl
  refine ⟨h.1, ?_⟩
  rw [(h.2 (by decide) (by decide)).1]
  show List.set [0, 0, 0, 0, 0] (1 - 1) ((28800 : ℚ) / 3600) = [8, 0, 0, 0, 0]
  norm_num

theorem clockOut_weekend_frame_witness :
    (handleClockOut saturdayNoon mondaySessionState).weeklyHours =
      mondaySessionState.weeklyHours :=
  clockOut_weekend_frame mondaySessionState saturdayNoon mondayNine
    rfl rfl (Or.inr rfl)

/-- C3: the Clock In button is enabled only when no session has started
(in particular no active session exists), the local hour lies in `[9, 17)`,
and the local day index lies in 1–5 of a Sunday = 0 scheme; the Clock Out
button is disabled exactly when no active session exists or one has
already ended. -/
theorem buttons_gate (now : DateTime) (s : ComponentState) :
    (clockInDisabled now s = false →
      activeSession s = false ∧ s.clockInTime = none ∧
      9 ≤ now.getHours ∧ now.getHours < 17 ∧
      1 ≤ now.getDay ∧ now.getDay ≤ 5) ∧
    (clockOutDisabled s = true ↔
      activeSession s = false ∨ s.clockOutTime.isSome = true) := by
  constructor
  · intro h
    cases hin : s.clockInTime with
    | some t =>
        rw [clockInDisabled, hin] at h
        simp at h
    | none =>
        rw [clockInDisabled, hin] at h
        simp [isWorkingHours, isWeekday] at h
        obtain ⟨⟨h9, h17⟩, hd0, hd6⟩ := h
        exact ⟨by simp [activeSession, hin], rfl, h9, h17, by omega, by omega⟩
  · cases hin : s.clockInTime <;> cases hout : s.clockOutTime <;>
      simp [clockOutDisabled, activeSession, hin, hout]

theorem buttons_gate_witness :
    activeSession initialComponentState = false ∧
    initialComponentState.clockInTime = none ∧
    9 ≤ wednesdayTen.getHours ∧ wednesdayTen.getHours < 17 ∧
    1 ≤ wednesdayTen.getDay ∧ wednesdayTen.getDay ≤ 5 :=
  (buttons_gate wednesdayTen initialComponentState).1 (by decide)

/-- C5: loading a just-saved record yields an identical state: parsing the
saved record succeeds, a stored `null` timestamp stays `null`, and applying
the loaded record over the initial state reproduces every field of the
saved state (timestamps at second precision). -/
theorem save_load_roundtrip (s : ComponentState) :
    loadStoredData (some (RawStored.parsed (dataToStore s))) =
      Except.ok (dataToStore s) ∧
    applyStoredData (dataToStore s) initialComponentState = s := by
  obtain ⟨cin, cout, tw, wh, r⟩ := s
  cases cin <;> cases cout <;> exact ⟨rfl, rfl⟩

/-- C6: a present but unparsable stored record makes `loadStoredData`
propagate the parse failure to its caller; the defaults arise only from the
absent-record branch, and a parsed record is returned as-is, never replaced
by defaults. -/
theorem load_failure_propagation :
    loadStoredData (some RawStored.malformed) =
      Except.error "SyntaxError: JSON.parse" ∧
    loadStoredData none = Except.ok getInitialData ∧
    (∀ d : StoredData,
      loadStoredData (some (RawStored.parsed d)) = Except.ok d) := by
  refine ⟨rfl, rfl, fun d => ?_⟩
  obtain ⟨cin, cout, tw, wh, r⟩ := d
  cases cin <;> cases cout <;> rfl

/-- Folding `total + hours * rate` from `a` accumulates the mapped sum. -/
lemma foldl_add_mul (r : ℚ) : ∀ (l : List ℚ) (a : ℚ),
    l.foldl (fun total hours => total + hours * r) a =
      a + (l.map (fun h => h * r)).sum
  | [], a => by simp
  | h :: t, a => by
      rw [List.foldl_cons, foldl_add_mul r t, List.map_cons, List.sum_cons]
      ring

/-- C7: the displayed weekly earnings equal the sum over `i` of
`weeklyHours[i] * hourlyRate`, rounded to two decimal places;
`[8, 8, 8, 8, 8]` at rate 15 yields 600.00. -/
theorem weeklyEarnings_spec (wh : List ℚ) (r : ℚ) :
    calculateWeeklyEarnings wh r =
      toFixed2 ((wh.map (fun h => h * r)).sum) ∧
    calculateWeeklyEarnings [8, 8, 8, 8, 8] 15 = 600 := by
  constructor
  · unfold calculateWeeklyEarnings
    rw [foldl_add_mul, zero_add]
  · unfold calculateWeeklyEarnings
    rw [foldl_add_mul, zero_add]
    have h1 : (([8, 8, 8, 8, 8] : List ℚ).map (fun h => h * 15)).sum = 600 := by
      norm_num
    rw [h1]
    unfold toFixed2
    rw [show ((600 : ℚ) * 100) = ((60000 : ℤ) : ℚ) by norm_num, round_intCast]
    norm_num

/-- `padStart(2, '0')` yields length `max 2` the input length. -/
lemma padStart2_length (s : String) : (padStart2 s).length = max 2 s.length := by
  have h : (padStart2 s).length = (2 - s.length) + s.length := by
    simp only [padStart2, String.length_append]
    congr 1
    exact List.length_replicate _ _
  omega

/-- C8: `formatTime` renders a non-negative second count as `HH:MM:SS` by
integer division into hours, minutes and seconds, each field zero-padded to
at least two digits; minutes and seconds stay below 60, the three fields
recombine to the input, and the hour field is not capped at 24
(90000 seconds renders as `25:00:00`). -/
theorem formatTime_spec (n : Nat) :
    formatTime n =
      padStart2 (Nat.repr (n / 3600)) ++ ":" ++
      padStart2 (Nat.repr (n % 3600 / 60)) ++ ":" ++
      padStart2 (Nat.repr (n % 60)) ∧
    2 ≤ (padStart2 (Nat.repr (n / 3600))).length ∧
    2 ≤ (padStart2 (Nat.repr (n % 3600 / 60))).length ∧
    2 ≤ (padStart2 (Nat.repr (n % 60))).length ∧
    n % 3600 / 60 < 60 ∧ n % 60 < 60 ∧
    3600 * (n / 3600) + 60 * (n % 3600 / 60) + n % 60 = n ∧
    formatTime 90000 = "25:00:00" := by
  refine ⟨rfl, ?_, ?_, ?_, by omega, by omega, by omega, rfl⟩ <;>
    (rw [padStart2_length]; omega)

/-- `handleClockOut` preserves the length of `weeklyHours` (it writes a
slot in place or leaves the list alone). -/
lemma handleClockOut_weeklyHours_length (now : DateTime) (s : ComponentState) :
    (handleClockOut now s).weeklyHours.length = s.weeklyHours.length := by
  obtain ⟨cin, cout, tw, wh, r⟩ := s
  cases cin with
  | none => rfl
  | some c =>
      unfold handleClockOut
      dsimp only
      split
      · exact List.length_set wh _ _
      · rfl

/-- `handleClockOut` never touches `clockInTime`. -/
lemma handleClockOut_clockInTime (now : DateTime) (s : ComponentState) :
    (handleClockOut now s).clockInTime = s.clockInTime := by
  obtain ⟨cin, cout, tw, wh, r⟩ := s
  cases cin with
  | none => rfl
  | some c =>
      unfold handleClockOut
      dsimp only
      split <;> rfl

/-- `tick` never touches `clockInTime`. -/
lemma tick_clockInTime (s : ComponentState) :
    (tick s).clockInTime = s.clockInTime := by
  unfold tick
  split <;> rfl

/-- C9: every reachable state has exactly 5 entries in `weeklyHours`: the
initial state provides five zeros, and clock-in, clock-out, tick, rate
edits, and loading a record saved from a reachable state all preserve the
length. -/
theorem weeklyHours_length_invariant (s : ComponentState) (hs : Reachable s) :
    s.weeklyHours.length = 5 := by
  induction hs with
  | init => rfl
  | step o hs ih =>
      cases o with
      | clockIn now => exact ih
      | clockOut now => rw [applyOp, handleClockOut_weeklyHours_length]; exact ih
      | tickOp =>
          show (tick _).weeklyHours.length = 5
          unfold tick
          split
          · exact ih
          · exact ih
      | setRate r => exact ih
  | load hs hsaved ihs ihsaved => exact ihsaved

theorem weeklyHours_length_invariant_witness :
    initialComponentState.weeklyHours.length = 5 :=
  weeklyHours_length_invariant initialComponentState Reachable.init

/-- No single event can clear a set `clockInTime`. -/
lemma applyMountedOp_keeps_clockInTime (o : MountedOp) (s : ComponentState)
    (h : s.clockInTime.isSome = true) :
    (applyMountedOp o s).clockInTime.isSome = true := by
  cases o with
  | op o' =>
      cases o' with
      | clockIn now => rfl
      | clockOut now =>
          show (handleClockOut now s).clockInTime.isSome = true
          rw [handleClockOut_clockInTime]; exact h
      | tickOp =>
          show (tick s).clockInTime.isSome = true
          rw [tick_clockInTime]; exact h
      | setRate r => exact h
  | loadFrom d =>
      show (applyStoredData d s).clockInTime.isSome = true
      unfold applyStoredData
      cases d.clockInTime with
      | none => exact h
      | some t => rfl

/-- C10: once `clockInTime` is non-null, no later event — clock-in,
clock-out, tick, rate edit, or a mount load of any stored record — ever
clears it, and consequently the Clock In button is disabled at every later
time, so no second session can ever start. -/
theorem clockInTime_never_cleared (s : ComponentState) (ops : List MountedOp)
    (h : s.clockInTime.isSome = true) :
    (applyMountedOps ops s).clockInTime.isSome = true ∧
    ∀ now : DateTime, clockInDisabled now (applyMountedOps ops s) = true := by
  have key : (applyMountedOps ops s).clockInTime.isSome = true := by
    induction ops generalizing s with
    | nil => exact h
    | cons o rest ih => exact ih _ (applyMountedOp_keeps_clockInTime o s h)
  exact ⟨key, fun now => by simp [clockInDisabled, key]⟩

theorem clockInTime_never_cleared_witness :
    (applyMountedOps demoOps mondaySessionState).clockInTime.isSome = true ∧
    clockInDisabled saturdayNoon (applyMountedOps demoOps mondaySessionState) =
      true := by
  have h := clockInTime_never_cleared mondaySessionState demoOps rfl
  exact ⟨h.1, h.2 saturdayNoon⟩
